import Mathlib

/- Shallow embedding of the task-supervision core of portable-file-dialogs.h:
   `pfd::internal::executor` (POSIX pipe branch and Windows future branch),
   `pfd::settings` (the static flag cache), the scan performed by
   `pfd::internal::dialog`'s constructor, and the POSIX branch of
   `pfd::internal::file_dialog::string_result`.

   The operating system is an explicit environment: every poll of a running
   POSIX task consumes one `ReadOutcome` (what the nonblocking `read(2)`
   returned) paired with the `Int` that `pclose` would report were it called
   at that moment.  Output buffers are modelled as `List Char`.  Each
   `ready`-style function also reports the milliseconds of explicit bounded
   waiting it performed (`sleep_for`, `wait_for`, `WaitForSingleObject`). -/

namespace PFD

/-- Linux errno value for EAGAIN (would-block on a nonblocking read). -/
def EAGAIN : Nat := 11

/-- Process wait timeout in milliseconds (`pfd::default_wait_timeout`). -/
def default_wait_timeout : Nat := 20

/-- Outcome of one nonblocking `read(2)` on the pipe of a running task:
    `rerr e` models `read` returning `-1` with `errno = e`; `rdata c` models
    `read` returning `c.length` bytes (`c = []` is end of stream, i.e.
    `read` returned `0`). -/
inductive ReadOutcome : Type where
  | rerr (errno : Nat)
  | rdata (chunk : List Char)
deriving DecidableEq, Repr

/-- One environment event consumed by a poll of a running task: the read
    outcome together with the status `pclose` would report at that moment. -/
abbrev PollEvent := ReadOutcome × Int

/-- State of `pfd::internal::executor`, POSIX branch: fields `m_running`,
    `m_stdout`, `m_exit_code`, `m_stream` (the `FILE *` kept abstract,
    `none` = null pointer; `m_fd` is subsumed by `m_stream`). -/
structure ExecState : Type where
  m_running : Bool
  m_stdout : List Char
  m_exit_code : Int
  m_stream : Option Unit
deriving DecidableEq, Repr

/-- Member initializers of `executor`: not running, empty output, exit code
    `-1`, null stream. -/
def initExec : ExecState := ⟨false, [], -1, none⟩

/-- Result of one `executor::ready` call on the POSIX branch: the new state,
    the returned boolean, and the milliseconds of explicit bounded waiting
    performed by the call. -/
structure PosixPoll : Type where
  state : ExecState
  ret : Bool
  elapsed : Nat
deriving DecidableEq, Repr

/-- `executor::ready(timeout)`, POSIX branch.  If not running, return `true`
    at once.  Otherwise perform one nonblocking `read`:
    `read = -1 && errno == EAGAIN`: sleep for `timeout` ms and return `false`;
    `read > 0`: append the bytes to `m_stdout` and return `false`;
    otherwise (`read = 0`, or `read = -1` with another errno): collect the
    exit status via `pclose`, clear `m_running` and return `true`. -/
def ready (s : ExecState) (o : ReadOutcome) (pcloseCode : Int) (timeout : Nat) :
    PosixPoll :=
  if s.m_running = false then ⟨s, true, 0⟩
  else
    match o with
    | .rerr e =>
        if e = EAGAIN then ⟨s, false, timeout⟩
        else ⟨{ s with m_exit_code := pcloseCode, m_running := false }, true, 0⟩
    | .rdata c =>
        if 0 < c.length then
          ⟨{ s with m_stdout := s.m_stdout ++ c }, false, 0⟩
        else ⟨{ s with m_exit_code := pcloseCode, m_running := false }, true, 0⟩

/-- Repeated `ready()` polling against a trace of environment events,
    stopping as soon as a poll returns `true`. -/
def pollTrace (s : ExecState) : List PollEvent → ExecState
  | [] => s
  | (o, c) :: rest =>
      let r := ready s o c default_wait_timeout
      if r.ret then r.state else pollTrace r.state rest

/-- `executor::stop()`: loop `ready()` (at the default timeout) until it
    returns `true`.  The environment trace supplies one event per poll of a
    running task; `none` means the trace was exhausted first (the loop in the
    source has no bound of its own). -/
def stopWith (s : ExecState) (events : List PollEvent) : Option ExecState :=
  if s.m_running = false then some s
  else
    match events with
    | [] => none
    | (o, c) :: rest =>
        let r := ready s o c default_wait_timeout
        if r.ret then some r.state else stopWith r.state rest

/-- `executor::result(&exit_code)`: `stop()`, then report `m_stdout` and
    `m_exit_code` (the final state is carried along for composition). -/
def result (s : ExecState) (events : List PollEvent) :
    Option (List Char × Int × ExecState) :=
  (stopWith s events).map fun s1 => (s1.m_stdout, s1.m_exit_code, s1)

/-- `executor::start(command)`: `stop()`, clear `m_stdout`, set `m_exit_code`
    to `-1`, then spawn.  `spawnOk` tells whether `popen` (or `CreateProcessW`
    on the Windows branch) succeeded: on failure the function returns before
    `m_running = true`, leaving a null handle. -/
def start (s : ExecState) (stopEvents : List PollEvent) (spawnOk : Bool) :
    Option ExecState :=
  (stopWith s stopEvents).map fun s1 =>
    let s2 : ExecState := { s1 with m_stdout := [], m_exit_code := -1 }
    if spawnOk then { s2 with m_stream := some (), m_running := true }
    else { s2 with m_stream := none }

/- Windows branch of the executor: a task started through the
   `std::function` overload holds a `std::future`; a task started through
   `CreateProcessW` holds a `PROCESS_INFORMATION`.  A handle carries the
   milliseconds until the underlying work completes; each bounded wait on a
   still-pending handle lets that remaining time tick down. -/

/-- A valid `std::future<std::string>`: time until ready, the string it will
    yield, and the value (if any) the async callable stores through the
    `&m_exit_code` pointer it was given. -/
structure WinFuture : Type where
  remainMs : Nat
  output : List Char
  exitWrite : Option Int
deriving DecidableEq, Repr

/-- A `PROCESS_INFORMATION` for a process spawned with `CreateProcessW`:
    time until exit and the exit code `GetExitCodeProcess` will report. -/
structure WinProc : Type where
  remainMs : Nat
  exitCode : Int
deriving DecidableEq, Repr

/-- State of `pfd::internal::executor`, Windows branch. -/
structure WinExecState : Type where
  m_running : Bool
  m_stdout : List Char
  m_exit_code : Int
  m_future : Option WinFuture
  m_pi : Option WinProc
deriving DecidableEq, Repr

/-- Result of one `executor::ready` call on the Windows branch. -/
structure WinPoll : Type where
  state : WinExecState
  ret : Bool
  elapsed : Nat
deriving DecidableEq, Repr

/-- `executor::ready(timeout)`, Windows branch.  If not running, return
    `true` at once.  If `m_future.valid()`, `wait_for(timeout)`: on
    completion take the future's string into `m_stdout` (overwriting, not
    appending) and any exit code the callable wrote; otherwise return
    `false` after waiting the full timeout.  Else `WaitForSingleObject` on
    the process handle with the same pattern, collecting the exit code via
    `GetExitCodeProcess` and closing the handles. -/
def winReady (s : WinExecState) (timeout : Nat) : WinPoll :=
  if s.m_running = false then ⟨s, true, 0⟩
  else
    match s.m_future with
    | some fut =>
        if fut.remainMs ≤ timeout then
          ⟨{ s with m_stdout := fut.output,
                    m_exit_code := fut.exitWrite.getD s.m_exit_code,
                    m_future := none, m_running := false },
           true, fut.remainMs⟩
        else
          ⟨{ s with m_future := some { fut with remainMs := fut.remainMs - timeout } },
           false, timeout⟩
    | none =>
        match s.m_pi with
        | some pi =>
            if pi.remainMs ≤ timeout then
              ⟨{ s with m_exit_code := pi.exitCode, m_pi := none,
                        m_running := false },
               true, pi.remainMs⟩
            else
              ⟨{ s with m_pi := some { pi with remainMs := pi.remainMs - timeout } },
               false, timeout⟩
        | none => ⟨{ s with m_running := false }, true, 0⟩

/-- `executor::stop()`, Windows branch: loop `ready()` until it returns
    `true` (the message pump between polls has no observable effect on the
    executor's own state).  `fuel` bounds the number of extra iterations the
    model will take; `none` means the fuel ran out first. -/
def winStop (fuel : Nat) (s : WinExecState) : Option WinExecState :=
  let r := winReady s default_wait_timeout
  if r.ret then some r.state
  else
    match fuel with
    | 0 => none
    | f + 1 => winStop f r.state

/-- `executor::start(fun)`, the `std::function` overload (Windows only):
    `stop()`, then `m_future = std::async(fun, &m_exit_code)` and
    `m_running = true`.  Note: unlike the command overload, it does not
    touch `m_stdout` or `m_exit_code`. -/
def winStartFun (fuel : Nat) (s : WinExecState) (fut : WinFuture) :
    Option WinExecState :=
  (winStop fuel s).map fun s1 =>
    { s1 with m_future := some fut, m_running := true }

/- The settings flag cache and the scan in dialog's constructor. -/

/-- The static `bool flags[max_flag]` array of `pfd::settings`. -/
structure Flags : Type where
  is_scanned : Bool
  is_verbose : Bool
  has_zenity : Bool
  has_matedialog : Bool
  has_qarma : Bool
  has_kdialog : Bool
deriving DecidableEq, Repr

/-- Zero-initialized static flag array. -/
def initFlags : Flags := ⟨false, false, false, false, false, false⟩

/-- `settings::settings(bool resync)`: `flags(is_scanned) &= !resync`. -/
def settingsCtor (resync : Bool) (f : Flags) : Flags :=
  { f with is_scanned := f.is_scanned && !resync }

/-- `settings::rescan()`: `settings(true)`. -/
def rescan (f : Flags) : Flags := settingsCtor true f

/-- Environment for one probe scan: the result `check_program` would report
    for each helper, and the value of `XDG_SESSION_DESKTOP` (`none` = unset). -/
structure ProbeEnv : Type where
  zenity_present : Bool
  matedialog_present : Bool
  qarma_present : Bool
  kdialog_present : Bool
  xdg_session_desktop : Option String
deriving DecidableEq, Repr

/-- The body of the `if (!flags(flag::is_scanned))` block in
    `internal::dialog::dialog()` on the Linux branch: probe the four
    helpers, resolve a zenity/kdialog tie from `XDG_SESSION_DESKTOP`, and
    set `is_scanned`. -/
def applyScan (f : Flags) (env : ProbeEnv) : Flags :=
  let f1 : Flags :=
    { f with has_zenity := env.zenity_present,
             has_matedialog := env.matedialog_present,
             has_qarma := env.qarma_present,
             has_kdialog := env.kdialog_present }
  let f2 : Flags :=
    if f1.has_zenity && f1.has_kdialog then
      match env.xdg_session_desktop with
      | some d =>
          if d = "gnome" then { f1 with has_kdialog := false }
          else if d = "KDE" then { f1 with has_zenity := false }
          else f1
      | none => f1
    else f1
  { f2 with is_scanned := true }

/-- The fixed set of helper identifiers probed by one scan, in source order. -/
def helperIds : List String := ["zenity", "matedialog", "qarma", "kdialog"]

/-- `internal::dialog::dialog()` as it acts on the flag cache: the implicit
    `settings()` base constructor (a no-op `&= true` on `is_scanned`), then
    the one-time scan guarded by `is_scanned`.  Returns the new flags and
    the list of helper identifiers probed by this construction. -/
def dialogCtor (f : Flags) (env : ProbeEnv) : Flags × List String :=
  let f0 := settingsCtor false f
  if f0.is_scanned = false then (applyScan f0 env, helperIds) else (f0, [])

/-- A sequence of dialog constructions, counting how many of them executed
    the probe scan. -/
def dialogSeq (f : Flags) : List ProbeEnv → Flags × Nat
  | [] => (f, 0)
  | env :: rest =>
      let r := dialogCtor f env
      let r2 := dialogSeq r.1 rest
      (r2.1, (if r.2.isEmpty then 0 else 1) + r2.2)

/- Two-thread interleaving model of the first-time scan.  Each thread runs
   dialog's constructor against the shared flag array, split into its two
   shared-memory phases exactly as the source orders them: first the read of
   `flags(flag::is_scanned)` deciding whether to scan, then (if it read
   `false`) the probe run plus flag writes ending with
   `flags(flag::is_scanned) = true`.  There is no synchronization in the
   source, so any interleaving of these phases is possible. -/

/-- Program counter of one thread constructing a dialog. -/
inductive ThreadPC : Type where
  | start_pc
  | scan_pc
  | done_pc
deriving DecidableEq, Repr

/-- Shared flag array, a global count of probe-set executions, and the two
    thread program counters. -/
structure RaceState : Type where
  flags : Flags
  scans : Nat
  pc1 : ThreadPC
  pc2 : ThreadPC
deriving DecidableEq, Repr

/-- Run a schedule: `true` steps thread 1, `false` steps thread 2.  A step
    at `start_pc` reads `is_scanned`; a step at `scan_pc` executes the whole
    probe set and flag writes (counted once per execution). -/
def runSched (env : ProbeEnv) (s : RaceState) : List Bool → RaceState
  | [] => s
  | pick :: rest =>
      let s1 :=
        if pick then
          match s.pc1 with
          | .start_pc =>
              if s.flags.is_scanned then { s with pc1 := .done_pc }
              else { s with pc1 := .scan_pc }
          | .scan_pc =>
              { s with flags := applyScan s.flags env,
                       scans := s.scans + 1, pc1 := .done_pc }
          | .done_pc => s
        else
          match s.pc2 with
          | .start_pc =>
              if s.flags.is_scanned then { s with pc2 := .done_pc }
              else { s with pc2 := .scan_pc }
          | .scan_pc =>
              { s with flags := applyScan s.flags env,
                       scans := s.scans + 1, pc2 := .done_pc }
          | .done_pc => s
      runSched env s1 rest

/-- A poll event on which a running task stays running: a would-block read
    error, or a nonempty chunk of data. -/
def isProgress : PollEvent → Bool
  | (.rerr e, _) => e == EAGAIN
  | (.rdata c, _) => !c.isEmpty

/-- In-order concatenation of all chunks carried by a trace of poll events. -/
def traceOutput : List PollEvent → List Char
  | [] => []
  | (.rdata c, _) :: rest => c ++ traceOutput rest
  | (.rerr _, _) :: rest => traceOutput rest

/-- `internal::file_dialog::string_result()`, POSIX branch:
    `ret.back() == '\n' ? ret.substr(0, ret.size() - 1) : ret`.
    `std::string::back()` on an empty string is undefined behaviour in C++,
    modelled here as `none`. -/
def string_result (ret : List Char) : Option (List Char) :=
  match ret.getLast? with
  | none => none
  | some c => if c = '\n' then some ret.dropLast else some ret

/- Helper lemmas shared by the claim theorems. -/

/-- A `ready` call that returns `true` leaves the executor not running. -/
theorem ready_ret_running (s : ExecState) (o : ReadOutcome) (c : Int) (t : Nat) :
    (ready s o c t).ret = true → (ready s o c t).state.m_running = false := by
  unfold ready
  by_cases hr : s.m_running = false
  · simp [hr]
  · simp only [hr, if_false]
    cases o with
    | rerr e =>
        by_cases he : e = EAGAIN
        · simp [he]
        · simp [he]
    | rdata ch =>
        by_cases hl : 0 < ch.length
        · simp [hl]
        · simp [hl]

/-- `stop()` on a task that is not running is a no-op. -/
theorem stopWith_not_running (s : ExecState) (tr : List PollEvent)
    (h : s.m_running = false) : stopWith s tr = some s := by
  unfold stopWith
  simp [h]

/-- Whenever `stop()` returns, the executor is not running. -/
theorem stopWith_finished :
    ∀ (tr : List PollEvent) (s s1 : ExecState),
      stopWith s tr = some s1 → s1.m_running = false := by
  intro tr
  induction tr with
  | nil =>
      intro s s1 h
      unfold stopWith at h
      by_cases hr : s.m_running = false
      · simp [hr] at h
        rw [← h]
        exact hr
      · simp [hr] at h
  | cons ev rest ih =>
      intro s s1 h
      obtain ⟨o, c⟩ := ev
      unfold stopWith at h
      by_cases hr : s.m_running = false
      · simp [hr] at h
        rw [← h]
        exact hr
      · by_cases hret : (ready s o c default_wait_timeout).ret = true
        · simp [hr, hret] at h
          rw [← h]
          exact ready_ret_running s o c default_wait_timeout hret
        · simp [hr, hret] at h
          exact ih _ _ h

/-- Field values established by a successful `start(command)`. -/
theorem start_fields (s : ExecState) (tr : List PollEvent) (ok : Bool)
    (s1 : ExecState) (h : start s tr ok = some s1) :
    s1.m_stdout = [] ∧ s1.m_exit_code = -1 ∧ s1.m_running = ok := by
  unfold start at h
  rw [Option.map_eq_some'] at h
  obtain ⟨s0, hst, hval⟩ := h
  rw [← hval]
  cases ok with
  | false => simpa using stopWith_finished tr s s0 hst
  | true => simp

/- C5 -/

/-- C5: on a running POSIX task, a poll whose `read` returns a nonempty
    chunk appends exactly that chunk to `capturedOutput`, returns `false`,
    and leaves the task running. -/
theorem c5_data_read_appends (s : ExecState) (c : List Char) (code : Int)
    (t : Nat) (hrun : s.m_running = true) (hc : c ≠ []) :
    (ready s (.rdata c) code t).state.m_stdout = s.m_stdout ++ c ∧
    (ready s (.rdata c) code t).ret = false ∧
    (ready s (.rdata c) code t).state.m_running = true := by
  have hlen : 0 < c.length := List.length_pos.mpr hc
  simp [ready, hrun, hlen]

/-- Witness for C5 at a concrete running state and chunk. -/
theorem c5_witness :
    (ready ⟨true, ['a'], -1, some ()⟩ (.rdata ['b']) 0 20).state.m_stdout
        = ['a'] ++ ['b'] ∧
    (ready ⟨true, ['a'], -1, some ()⟩ (.rdata ['b']) 0 20).ret = false ∧
    (ready ⟨true, ['a'], -1, some ()⟩ (.rdata ['b']) 0 20).state.m_running = true :=
  c5_data_read_appends ⟨true, ['a'], -1, some ()⟩ ['b'] 0 20 rfl (by decide)

/- C6 -/

/-- C6 counterexample: a failed read with `errno = 4` (not `EAGAIN`) on a
    running task is treated as completion — `ready` returns `true` and the
    task leaves `Running` — contradicting the claim that every failed read
    yields `false` with the task still running. -/
theorem c6_counterexample :
    (ready ⟨true, ['x'], -1, some ()⟩ (.rerr 4) 7 20).ret = true ∧
    (ready ⟨true, ['x'], -1, some ()⟩ (.rerr 4) 7 20).state.m_running = false ∧
    (4 : Nat) ≠ EAGAIN := by decide

/-- C6 (amended): on a running POSIX task a failed read with `errno = EAGAIN`
    is treated as "not ready yet" (returns `false`, state unchanged), while a
    failed read with any other errno is treated as end-of-output: the exit
    status is collected via `pclose` and `ready` returns `true`. -/
theorem c6_amended (s : ExecState) (e : Nat) (code : Int) (t : Nat)
    (hrun : s.m_running = true) :
    (e = EAGAIN → ready s (.rerr e) code t = ⟨s, false, t⟩) ∧
    (e ≠ EAGAIN →
      (ready s (.rerr e) code t).ret = true ∧
      (ready s (.rerr e) code t).state.m_running = false ∧
      (ready s (.rerr e) code t).state.m_stdout = s.m_stdout ∧
      (ready s (.rerr e) code t).state.m_exit_code = code) := by
  constructor
  · intro he
    simp [ready, hrun, he]
  · intro he
    simp [ready, hrun, he]

/-- Witness for C6's amended theorem at concrete inputs, one per branch. -/
theorem c6_witness :
    (ready ⟨true, ['x'], 5, some ()⟩ (.rerr EAGAIN) 0 20
        = ⟨⟨true, ['x'], 5, some ()⟩, false, 20⟩) ∧
    (ready ⟨true, ['x'], 5, some ()⟩ (.rerr 4) 7 20).ret = true :=
  ⟨(c6_amended ⟨true, ['x'], 5, some ()⟩ EAGAIN 0 20 rfl).1 rfl,
   ((c6_amended ⟨true, ['x'], 5, some ()⟩ 4 7 20 rfl).2 (by decide)).1⟩

/- C8 -/

/-- C8: a single `ready(t)` call performs at most `t` milliseconds of
    explicit bounded waiting, on the POSIX branch (sleep of `t` on a
    would-block read, none otherwise) and on both Windows branches
    (`wait_for(t)` on the future, `WaitForSingleObject(_, t)` on the
    process handle). -/
theorem c8_bounded_wait :
    (∀ (s : ExecState) (o : ReadOutcome) (code : Int) (t : Nat),
        (ready s o code t).elapsed ≤ t) ∧
    (∀ (s : WinExecState) (t : Nat), (winReady s t).elapsed ≤ t) := by
  constructor
  · intro s o code t
    unfold ready
    by_cases hr : s.m_running = false
    · simp [hr]
    · simp only [hr, if_false]
      cases o with
      | rerr e =>
          by_cases he : e = EAGAIN
          · simp [he]
          · simp [he]
      | rdata ch =>
          by_cases hl : 0 < ch.length
          · simp [hl]
          · simp [hl]
  · intro s t
    unfold winReady
    by_cases hr : s.m_running = false
    · simp [hr]
    · simp only [hr, if_false]
      cases hf : s.m_future with
      | some fut =>
          by_cases hle : fut.remainMs ≤ t
          · simp [hle]
          · simp [hle]
      | none =>
          cases hp : s.m_pi with
          | some pi =>
              by_cases hle : pi.remainMs ≤ t
              · simp [hle]
              · simp [hle]
          | none => simp

/- C10 -/

/-- C10: the POSIX `string_result()` inspects the last character of the
    captured output; on empty output the access has no safe result
    (undefined behaviour, modelled as `none`), and on nonempty output it
    strips exactly one trailing newline. -/
theorem c10_string_result_strip :
    string_result [] = none ∧
    (∀ t : List Char, string_result (t ++ ['\n']) = some t) ∧
    (∀ (t : List Char) (c : Char), c ≠ '\n' →
        string_result (t ++ [c]) = some (t ++ [c])) := by
  refine ⟨rfl, ?_, ?_⟩
  · intro t
    simp [string_result, List.getLast?_concat, List.dropLast_concat]
  · intro t c hc
    simp [string_result, List.getLast?_concat, hc]

/-- Witness for C10 at a concrete nonempty output without trailing newline. -/
theorem c10_witness :
    string_result (['a'] ++ ['b']) = some (['a'] ++ ['b']) :=
  c10_string_result_strip.2.2 ['a'] 'b' (by decide)

/- C2 -/

/-- C2: when the spawn inside `start(command)` fails, the task never enters
    the running state, its output is empty and its status is the sentinel
    `-1`; every subsequent `ready()` call returns `true` immediately (state
    unchanged, no waiting) and `result()` reports `([], -1)`. -/
theorem c2_spawn_failure (s : ExecState) (tr : List PollEvent)
    (s1 : ExecState) (h : start s tr false = some s1) :
    s1.m_running = false ∧ s1.m_stdout = [] ∧ s1.m_exit_code = -1 ∧
    (∀ (o : ReadOutcome) (c : Int) (t : Nat), ready s1 o c t = ⟨s1, true, 0⟩) ∧
    (∀ tr2 : List PollEvent, result s1 tr2 = some ([], -1, s1)) := by
  obtain ⟨hout, hexit, hrun⟩ := start_fields s tr false s1 h
  refine ⟨hrun, hout, hexit, ?_, ?_⟩
  · intro o c t
    simp [ready, hrun]
  · intro tr2
    simp [result, stopWith_not_running s1 tr2 hrun, hout, hexit]

/-- Witness for C2: a failed spawn from the initial executor state. -/
theorem c2_witness :
    (⟨false, [], -1, none⟩ : ExecState).m_running = false ∧
    (⟨false, [], -1, none⟩ : ExecState).m_stdout = [] ∧
    (⟨false, [], -1, none⟩ : ExecState).m_exit_code = -1 ∧
    (∀ (o : ReadOutcome) (c : Int) (t : Nat),
        ready ⟨false, [], -1, none⟩ o c t = ⟨⟨false, [], -1, none⟩, true, 0⟩) ∧
    (∀ tr2 : List PollEvent,
        result ⟨false, [], -1, none⟩ tr2 = some ([], -1, ⟨false, [], -1, none⟩)) :=
  c2_spawn_failure initExec [] ⟨false, [], -1, none⟩ (by decide)

/- C4 -/

/-- C4: `stop()` on a task that is not running is a no-op that changes no
    state, and `result()` is terminal and idempotent: it always leaves the
    task finished with fields matching the returned pair, and calling it
    again returns the same pair. -/
theorem c4_stop_noop_result_idempotent :
    (∀ (s : ExecState) (tr : List PollEvent),
        s.m_running = false → stopWith s tr = some s) ∧
    (∀ (s : ExecState) (tr : List PollEvent) (out : List Char) (code : Int)
        (s1 : ExecState), result s tr = some (out, code, s1) →
        s1.m_running = false ∧ s1.m_stdout = out ∧ s1.m_exit_code = code ∧
        ∀ tr2 : List PollEvent, result s1 tr2 = some (out, code, s1)) := by
  constructor
  · exact stopWith_not_running
  · intro s tr out code s1 h
    unfold result at h
    rw [Option.map_eq_some'] at h
    obtain ⟨s0, hst, hval⟩ := h
    have hfin : s0.m_running = false := stopWith_finished tr s s0 hst
    obtain ⟨hout, hcode, hs⟩ : s0.m_stdout = out ∧ s0.m_exit_code = code ∧ s0 = s1 := by
      constructor
      · exact congrArg (fun p => p.1) hval
      constructor
      · exact congrArg (fun p => p.2.1) hval
      · exact congrArg (fun p => p.2.2) hval
    rw [← hs]
    refine ⟨hfin, hout, hcode, ?_⟩
    intro tr2
    simp [result, stopWith_not_running s0 tr2 hfin, hout, hcode]

/-- Witness for C4 at a concrete finished state. -/
theorem c4_witness :
    (stopWith ⟨false, ['z'], 0, none⟩ [] = some ⟨false, ['z'], 0, none⟩) ∧
    ((⟨false, ['z'], 0, none⟩ : ExecState).m_running = false ∧
     (⟨false, ['z'], 0, none⟩ : ExecState).m_stdout = ['z'] ∧
     (⟨false, ['z'], 0, none⟩ : ExecState).m_exit_code = 0 ∧
     ∀ tr2 : List PollEvent,
       result ⟨false, ['z'], 0, none⟩ tr2
           = some (['z'], 0, ⟨false, ['z'], 0, none⟩)) :=
  ⟨c4_stop_noop_result_idempotent.1 ⟨false, ['z'], 0, none⟩ [] rfl,
   c4_stop_noop_result_idempotent.2 ⟨false, ['z'], 0, none⟩ [] ['z'] 0
     ⟨false, ['z'], 0, none⟩ (by decide)⟩

/- C1 -/

/-- Polling a running task through a trace of progress events followed by
    end-of-stream appends exactly the concatenation of the trace's chunks
    and finishes with the `pclose` status. -/
theorem pollTrace_progress :
    ∀ (body : List PollEvent) (s : ExecState) (code : Int),
      s.m_running = true → (∀ ev ∈ body, isProgress ev = true) →
      (pollTrace s (body ++ [(ReadOutcome.rdata [], code)])).m_stdout
          = s.m_stdout ++ traceOutput body ∧
      (pollTrace s (body ++ [(ReadOutcome.rdata [], code)])).m_running = false ∧
      (pollTrace s (body ++ [(ReadOutcome.rdata [], code)])).m_exit_code = code := by
  intro body
  induction body with
  | nil =>
      intro s code hrun _
      simp [pollTrace, ready, hrun, traceOutput]
  | cons ev rest ih =>
      intro s code hrun hprog
      obtain ⟨o, c⟩ := ev
      have hev : isProgress (o, c) = true := hprog (o, c) (List.mem_cons_self _ _)
      have hrest : ∀ ev ∈ rest, isProgress ev = true := by
        intro e he
        exact hprog e (List.mem_cons_of_mem _ he)
      cases o with
      | rerr e =>
          have he : e = EAGAIN := by simpa [isProgress] using hev
          have hstep :
              pollTrace s (((ReadOutcome.rerr e, c) :: rest)
                  ++ [(ReadOutcome.rdata [], code)])
                = pollTrace s (rest ++ [(ReadOutcome.rdata [], code)]) := by
            simp [pollTrace, ready, hrun, he]
          rw [hstep]
          simpa [traceOutput] using ih s code hrun hrest
      | rdata ch =>
          have hch : 0 < ch.length := by
            have : ch ≠ [] := by simpa [isProgress] using hev
            exact List.length_pos.mpr this
          have hstep :
              pollTrace s (((ReadOutcome.rdata ch, c) :: rest)
                  ++ [(ReadOutcome.rdata [], code)])
                = pollTrace { s with m_stdout := s.m_stdout ++ ch }
                    (rest ++ [(ReadOutcome.rdata [], code)]) := by
            simp [pollTrace, ready, hrun, hch]
          rw [hstep]
          have := ih { s with m_stdout := s.m_stdout ++ ch } code (by simpa using hrun) hrest
          simpa [traceOutput, List.append_assoc] using this

/-- C1: after a successful `start(command)`, repeated `ready()` polling over
    any sequence of would-block pauses and data chunks, ended by
    end-of-stream, leaves exactly the in-order concatenation of all chunks
    in `capturedOutput` — no loss, gaps, or duplication — and `result()`
    returns that concatenation with the collected status. -/
theorem c1_multi_chunk_capture (sPrev : ExecState) (stopTr : List PollEvent)
    (s0 : ExecState) (hstart : start sPrev stopTr true = some s0)
    (body : List PollEvent) (code : Int)
    (hbody : ∀ ev ∈ body, isProgress ev = true) :
    (pollTrace s0 (body ++ [(ReadOutcome.rdata [], code)])).m_running = false ∧
    (pollTrace s0 (body ++ [(ReadOutcome.rdata [], code)])).m_stdout
        = traceOutput body ∧
    result (pollTrace s0 (body ++ [(ReadOutcome.rdata [], code)])) []
        = some (traceOutput body, code,
                pollTrace s0 (body ++ [(ReadOutcome.rdata [], code)])) := by
  obtain ⟨hout, hexit, hrun⟩ := start_fields sPrev stopTr true s0 hstart
  obtain ⟨h1, h2, h3⟩ := pollTrace_progress body s0 code hrun hbody
  rw [hout] at h1
  simp only [List.nil_append] at h1
  refine ⟨h2, h1, ?_⟩
  simp [result, stopWith_not_running _ [] h2, h1, h3]

/-- Witness for C1: three chunks split across polls with a would-block pause
    in between; the captured output is their concatenation. -/
theorem c1_witness :
    (pollTrace ⟨true, [], -1, some ()⟩
        ([(ReadOutcome.rdata ['a', 'b'], 0), (ReadOutcome.rerr EAGAIN, 0),
          (ReadOutcome.rdata ['c'], 0)] ++ [(ReadOutcome.rdata [], 0)])).m_running
        = false ∧
    (pollTrace ⟨true, [], -1, some ()⟩
        ([(ReadOutcome.rdata ['a', 'b'], 0), (ReadOutcome.rerr EAGAIN, 0),
          (ReadOutcome.rdata ['c'], 0)] ++ [(ReadOutcome.rdata [], 0)])).m_stdout
        = traceOutput [(ReadOutcome.rdata ['a', 'b'], 0), (ReadOutcome.rerr EAGAIN, 0),
            (ReadOutcome.rdata ['c'], 0)] ∧
    result (pollTrace ⟨true, [], -1, some ()⟩
        ([(ReadOutcome.rdata ['a', 'b'], 0), (ReadOutcome.rerr EAGAIN, 0),
          (ReadOutcome.rdata ['c'], 0)] ++ [(ReadOutcome.rdata [], 0)])) []
        = some (traceOutput [(ReadOutcome.rdata ['a', 'b'], 0), (ReadOutcome.rerr EAGAIN, 0),
            (ReadOutcome.rdata ['c'], 0)], 0,
            pollTrace ⟨true, [], -1, some ()⟩
              ([(ReadOutcome.rdata ['a', 'b'], 0), (ReadOutcome.rerr EAGAIN, 0),
                (ReadOutcome.rdata ['c'], 0)] ++ [(ReadOutcome.rdata [], 0)])) :=
  c1_multi_chunk_capture initExec [] ⟨true, [], -1, some ()⟩ (by decide)
    [(ReadOutcome.rdata ['a', 'b'], 0), (ReadOutcome.rerr EAGAIN, 0),
     (ReadOutcome.rdata ['c'], 0)] 0 (by decide)

/- C3 -/

/-- C3 counterexample: starting new work through the `std::function` overload
    after a prior run left `capturedOutput = "old"` and `statusCode = 3`
    leaves both values in place — the overload performs no reset, refuting
    the claim that every form of `start` resets them. -/
theorem c3_counterexample :
    ((winStartFun 1 ⟨false, ['o', 'l', 'd'], 3, none, none⟩ ⟨5, ['n'], none⟩).map
        fun s => (s.m_stdout, s.m_exit_code)) = some (['o', 'l', 'd'], 3) ∧
    (['o', 'l', 'd'] ≠ ([] : List Char) ∧ (3 : Int) ≠ -1) := by decide

/-- C3 (amended): the command-string `start` stops the prior task and resets
    `capturedOutput` to empty and `statusCode` to the sentinel before the new
    work begins; the platform-native callable `start` stops the prior task
    but performs no reset — yet the prior run's output still never mixes into
    the new run's result, because completion of the new future overwrites
    `capturedOutput` with the future's value. -/
theorem c3_amended :
    (∀ (s : ExecState) (tr : List PollEvent) (ok : Bool) (s1 : ExecState),
        start s tr ok = some s1 →
        s1.m_stdout = [] ∧ s1.m_exit_code = -1 ∧ s1.m_running = ok) ∧
    (∀ (fuel : Nat) (s : WinExecState) (fut : WinFuture) (s1 : WinExecState),
        winStop fuel s = some s1 →
        winStartFun fuel s fut
            = some { s1 with m_future := some fut, m_running := true }) ∧
    (∀ (s : WinExecState) (fut : WinFuture) (t : Nat),
        s.m_running = true → s.m_future = some fut → fut.remainMs ≤ t →
        (winReady s t).state.m_stdout = fut.output ∧ (winReady s t).ret = true) := by
  refine ⟨start_fields, ?_, ?_⟩
  · intro fuel s fut s1 h
    simp [winStartFun, h]
  · intro s fut t hrun hfut hle
    simp [winReady, hrun, hfut, hle]

/-- Witness for C3's amended theorem: a concrete reset by the command form,
    a concrete preservation by the callable form, and a concrete overwrite
    on future completion. -/
theorem c3_witness :
    ((⟨true, [], -1, some ()⟩ : ExecState).m_stdout = [] ∧
     (⟨true, [], -1, some ()⟩ : ExecState).m_exit_code = -1 ∧
     (⟨true, [], -1, some ()⟩ : ExecState).m_running = true) ∧
    (winStartFun 0 ⟨false, ['o'], 3, none, none⟩ ⟨5, ['n'], none⟩
        = some { (⟨false, ['o'], 3, none, none⟩ : WinExecState) with
                 m_future := some ⟨5, ['n'], none⟩, m_running := true }) ∧
    ((winReady ⟨true, ['o'], 3, some ⟨5, ['n'], none⟩, none⟩ 20).state.m_stdout
        = ['n'] ∧
     (winReady ⟨true, ['o'], 3, some ⟨5, ['n'], none⟩, none⟩ 20).ret = true) :=
  ⟨c3_amended.1 initExec [] true ⟨true, [], -1, some ()⟩ (by decide),
   c3_amended.2.1 0 ⟨false, ['o'], 3, none, none⟩ ⟨5, ['n'], none⟩
     ⟨false, ['o'], 3, none, none⟩ (by decide),
   c3_amended.2.2 ⟨true, ['o'], 3, some ⟨5, ['n'], none⟩, none⟩
     ⟨5, ['n'], none⟩ 20 rfl rfl (by decide)⟩

/- C7 -/

/-- Any dialog construction leaves the cache scanned. -/
theorem dialogCtor_scanned (f : Flags) (env : ProbeEnv) :
    (dialogCtor f env).1.is_scanned = true := by
  unfold dialogCtor settingsCtor
  by_cases h : f.is_scanned = true
  · simp [h]
  · simp [h, applyScan]

/-- After the cache is scanned, further dialog constructions never probe. -/
theorem dialogSeq_scanned :
    ∀ (envs : List ProbeEnv) (f : Flags),
      f.is_scanned = true → (dialogSeq f envs).2 = 0 := by
  intro envs
  induction envs with
  | nil => intro f _; rfl
  | cons env rest ih =>
      intro f h
      have hctor : dialogCtor f env = (settingsCtor false f, []) := by
        unfold dialogCtor
        simp [settingsCtor, h]
      have hscanned : (settingsCtor false f).is_scanned = true := by
        simp [settingsCtor, h]
      simp [dialogSeq, hctor, ih _ hscanned]

/-- C7: a `rescan()` followed by a dialog construction re-runs the presence
    probe for every helper identifier, and across any number of dialog
    constructions without an intervening `rescan()` at most one probe scan is
    executed (the `is_scanned` flag, once set, prevents all further probing). -/
theorem c7_scan_once_and_rescan :
    (∀ (f : Flags) (env : ProbeEnv),
        (dialogCtor (rescan f) env).2 = helperIds) ∧
    (∀ (f : Flags) (envs : List ProbeEnv), (dialogSeq f envs).2 ≤ 1) := by
  constructor
  · intro f env
    unfold dialogCtor
    simp [rescan, settingsCtor]
  · intro f envs
    cases envs with
    | nil => simp [dialogSeq]
    | cons env rest =>
        have hscanned := dialogCtor_scanned f env
        have hrest := dialogSeq_scanned rest (dialogCtor f env).1 hscanned
        simp only [dialogSeq, hrest]
        split <;> simp

/- C9 -/

/-- C9 counterexample: with the unsynchronized flag cache, the interleaving
    in which both threads read `is_scanned = false` before either scan runs
    executes the probe set twice, not once; both threads then complete. -/
theorem c9_counterexample :
    (runSched ⟨true, false, false, false, none⟩
        ⟨initFlags, 0, .start_pc, .start_pc⟩ [true, false, true, false]).scans = 2 ∧
    (runSched ⟨true, false, false, false, none⟩
        ⟨initFlags, 0, .start_pc, .start_pc⟩ [true, false, true, false]).pc1
        = .done_pc ∧
    (runSched ⟨true, false, false, false, none⟩
        ⟨initFlags, 0, .start_pc, .start_pc⟩ [true, false, true, false]).pc2
        = .done_pc ∧
    (2 : Nat) ≠ 1 := by decide

/-- The scan writes end by setting `is_scanned`. -/
theorem applyScan_scanned (f : Flags) (env : ProbeEnv) :
    (applyScan f env).is_scanned = true := rfl

/-- Once the cache is scanned and neither thread is mid-scan, no further
    step of any schedule executes the probe set. -/
theorem runSched_no_scan (env : ProbeEnv) :
    ∀ (sched : List Bool) (s : RaceState),
      s.flags.is_scanned = true → s.pc1 ≠ .scan_pc → s.pc2 ≠ .scan_pc →
      (runSched env s sched).scans = s.scans := by
  intro sched
  induction sched with
  | nil => intro s _ _ _; rfl
  | cons pick rest ih =>
      intro s hsc h1 h2
      obtain ⟨f, n, p1, p2⟩ := s
      cases pick with
      | true =>
          cases p1 with
          | start_pc =>
              have hstep : runSched env ⟨f, n, .start_pc, p2⟩ (true :: rest)
                  = runSched env
                      (if f.is_scanned then ⟨f, n, .done_pc, p2⟩
                       else ⟨f, n, .scan_pc, p2⟩) rest := rfl
              have hsc' : f.is_scanned = true := hsc
              rw [hstep, hsc']
              exact ih ⟨f, n, .done_pc, p2⟩ hsc (by simp) h2
          | scan_pc => exact absurd rfl h1
          | done_pc => simpa [runSched] using ih ⟨f, n, .done_pc, p2⟩ hsc (by simp) h2
      | false =>
          cases p2 with
          | start_pc =>
              have hstep : runSched env ⟨f, n, p1, .start_pc⟩ (false :: rest)
                  = runSched env
                      (if f.is_scanned then ⟨f, n, p1, .done_pc⟩
                       else ⟨f, n, p1, .scan_pc⟩) rest := rfl
              have hsc' : f.is_scanned = true := hsc
              rw [hstep, hsc']
              exact ih ⟨f, n, p1, .done_pc⟩ hsc h1 (by simp)
          | scan_pc => exact absurd rfl h2
          | done_pc => simpa [runSched] using ih ⟨f, n, p1, .done_pc⟩ hsc h1 (by simp)

/-- C9 (amended): the flag cache has no synchronization, so two concurrent
    first-time capability queries may each execute the probe set (see the
    counterexample); the probe set is executed exactly once when the first
    query's construction completes before the second thread takes a step. -/
theorem c9_amended (env : ProbeEnv) (f : Flags) (sched : List Bool)
    (h : f.is_scanned = false) :
    (runSched env ⟨f, 0, .start_pc, .start_pc⟩ ([true, true] ++ sched)).scans = 1 := by
  have hstep : runSched env ⟨f, 0, .start_pc, .start_pc⟩ ([true, true] ++ sched)
      = runSched env ⟨applyScan f env, 1, .done_pc, .start_pc⟩ sched := by
    simp [runSched, h]
  rw [hstep]
  exact runSched_no_scan env sched ⟨applyScan f env, 1, .done_pc, .start_pc⟩
    (applyScan_scanned f env) (by simp) (by simp)

/-- Witness for C9's amended theorem: thread 1 scans to completion, then any
    later schedule (here thread 2's two steps) adds no further scan. -/
theorem c9_witness :
    (runSched ⟨true, false, false, false, none⟩
        ⟨initFlags, 0, .start_pc, .start_pc⟩
        ([true, true] ++ [false, false])).scans = 1 :=
  c9_amended ⟨true, false, false, false, none⟩ initFlags [false, false] rfl

end PFD
